import Mathlib

/-!
Shallow embedding of the paint-by-number client (React/TypeScript) core logic:
palette model and id allocation, image normalization dimensions, color sampling,
generation-request validation, response normalization, error mapping, progress
reporting, and the color conversion helpers.  Definitions are translated from
the repository source; theorems check the specification's claims against them.

The repository contains two generations of the utility module.  The newer one
(`utils.ts` v2.0, with `CompressionOptions`, `generateColorId`, the
complexity-slider `generatePaintByNumber`) is embedded in namespace `V2`; the
older one (single `maxDimension`, progress-callback `generatePaintByNumber`)
is embedded in namespace `V1`.
-/

/-- PaletteColor from `types.ts`: a short string id, an RGB triple and an
optional free-text note (the v2 type marks `note` optional; `none` models an
absent field). -/
structure PaletteColor where
  id : String
  rgb : ℕ × ℕ × ℕ
  note : Option String
deriving DecidableEq, Repr

/-- Ids of a palette, in order. -/
def paletteIds (palette : List PaletteColor) : List String :=
  palette.map (fun c => c.id)

/-- The invariant claimed by the spec: ids within one palette are pairwise
distinct. -/
def idsPairwiseDistinct (palette : List PaletteColor) : Prop :=
  (paletteIds palette).Nodup

instance (palette : List PaletteColor) : Decidable (idsPairwiseDistinct palette) := by
  unfold idsPairwiseDistinct
  infer_instance

namespace PaintLab

/-- New entry built by `scanColor` in `PaintLab.tsx`: the id is
`(palette.length + 1).toString()`, the rgb is the sampled color, the note is
the empty string. -/
def scanColorNewEntry (palette : List PaletteColor) (rgb : ℕ × ℕ × ℕ) : PaletteColor :=
  { id := toString (palette.length + 1), rgb := rgb, note := some "" }

/-- Palette update performed by `scanColor` (camera-scan addition):
`onPaletteChange([...palette, newColor])`. -/
def scanColorAdd (palette : List PaletteColor) (rgb : ℕ × ℕ × ℕ) : List PaletteColor :=
  palette ++ [scanColorNewEntry palette rgb]

/-- Palette update performed by `addManualColor` in `PaintLab.tsx`: appends a
default gray entry with id `(palette.length + 1).toString()`. -/
def addManualColor (palette : List PaletteColor) : List PaletteColor :=
  palette ++ [{ id := toString (palette.length + 1), rgb := (128, 128, 128), note := some "" }]

/-- Palette update performed by `removeColor` in `PaintLab.tsx`:
`palette.filter((c) => c.id !== id)`. -/
def removeColor (id : String) (palette : List PaletteColor) : List PaletteColor :=
  palette.filter (fun c => c.id ≠ id)

end PaintLab

namespace V2

/-- Candidate numeric ids tried by `generateColorId` in `utils.ts`: the loop
`for (let i = 1; i <= 99; i++)` tests `i.toString()` in ascending order. -/
def numericIdCandidates : List String :=
  (List.range 99).map (fun i => toString (i + 1))

/-- Candidate letter ids tried by `generateColorId`: the characters of
`'ABCDEFGHIJKLMNOPQRSTUVWXYZ'`, each as a one-character string, in order. -/
def letterIdCandidates : List String :=
  "ABCDEFGHIJKLMNOPQRSTUVWXYZ".data.map (fun c => String.mk [c])

/-- The search loop shared by both tiers of `generateColorId`: return the
first candidate `id` with `!existingIds.includes(id)`. -/
def firstUnusedId (existingIds : List String) : List String → Option String
  | [] => none
  | c :: cs => if existingIds.contains c then firstUnusedId existingIds cs else some c

/-- generateColorId from `utils.ts`: try `"1"`..`"99"` in ascending order,
then `"A"`..`"Z"` in order; when every candidate is taken the code falls back
to a random alphanumeric token, modelled here as `none` (the only
non-deterministic branch). -/
def generateColorId (existingIds : List String) : Option String :=
  match firstUnusedId existingIds numericIdCandidates with
  | some id => some id
  | none => firstUnusedId existingIds letterIdCandidates

end V2

namespace V2

theorem firstUnusedId_some (ids : List String) (cs : List String) (c : String)
    (h : firstUnusedId ids cs = some c) :
    ∃ l1 l2, cs = l1 ++ c :: l2 ∧ (∀ d ∈ l1, d ∈ ids) ∧ c ∉ ids := by
  induction cs with
  | nil => simp [firstUnusedId] at h
  | cons a as ih =>
    simp only [firstUnusedId] at h
    by_cases hc : a ∈ ids
    · have h' : firstUnusedId ids as = some c := by simpa [hc] using h
      obtain ⟨l1, l2, hsplit, hl1, hnot⟩ := ih h'
      refine ⟨a :: l1, l2, by simp [hsplit], ?_, hnot⟩
      intro d hd
      rcases List.mem_cons.mp hd with hd | hd
      · exact hd ▸ hc
      · exact hl1 d hd
    · have hac : a = c := by simpa [hc] using h
      exact ⟨[], as, by simp [hac], by simp, hac ▸ hc⟩

theorem firstUnusedId_none_iff (ids : List String) (cs : List String) :
    firstUnusedId ids cs = none ↔ ∀ c ∈ cs, c ∈ ids := by
  induction cs with
  | nil => simp [firstUnusedId]
  | cons a as ih =>
    simp only [firstUnusedId]
    by_cases hc : a ∈ ids
    · simp [hc, ih]
    · simp [hc]

theorem numeric_split (l1 l2 : List String) (c : String)
    (h : numericIdCandidates = l1 ++ c :: l2) :
    c = toString (l1.length + 1) ∧ l1.length < 99 ∧
      ∀ j, 1 ≤ j → j ≤ l1.length → toString j ∈ l1 := by
  have hlen : l1.length + 1 + l2.length = 99 := by
    have := congrArg List.length h
    simp [numericIdCandidates] at this
    omega
  have hk : l1.length < 99 := by omega
  have hcval : c = toString (l1.length + 1) := by
    have h1 : (l1 ++ c :: l2)[l1.length]? = some c := by
      rw [List.getElem?_append_right (Nat.le_refl _)]
      simp
    have h2 : numericIdCandidates[l1.length]? = some (toString (l1.length + 1)) := by
      simp [numericIdCandidates, List.getElem?_range hk]
    rw [h, h1] at h2
    exact Option.some.inj h2
  refine ⟨hcval, hk, ?_⟩
  intro j h1j hjl
  have hj : j - 1 < l1.length := by omega
  have hg : l1[j - 1]? = some (toString j) := by
    have h1 : numericIdCandidates[j - 1]? = some (toString ((j - 1) + 1)) := by
      simp [numericIdCandidates, List.getElem?_range (by omega : j - 1 < 99)]
    have h2 : numericIdCandidates[j - 1]? = l1[j - 1]? := by
      rw [h, List.getElem?_append_left hj]
    rw [h2] at h1
    have hj1 : (j - 1) + 1 = j := by omega
    rw [hj1] at h1
    exact h1
  exact List.getElem?_mem hg

theorem numeric_mem (j : ℕ) (h1 : 1 ≤ j) (h2 : j ≤ 99) : toString j ∈ numericIdCandidates := by
  have : toString j = toString ((j - 1) + 1) := by congr 1; omega
  rw [this]
  exact List.mem_map_of_mem _ (List.mem_range.mpr (by omega))

theorem numeric_char (c : String) (h : c ∈ numericIdCandidates) :
    ∃ j, 1 ≤ j ∧ j ≤ 99 ∧ c = toString j := by
  simp only [numericIdCandidates, List.mem_map, List.mem_range] at h
  obtain ⟨i, hi, rfl⟩ := h
  exact ⟨i + 1, by omega, by omega, rfl⟩

end V2

/-- Concrete reachable palette exhibiting the id-collision bug of
`PaintLab.tsx`: add three colors manually, then remove the one with id
`"2"`; the remaining ids are `["1", "3"]`. -/
def paletteAfterRemove : List PaletteColor :=
  PaintLab.removeColor "2"
    (PaintLab.addManualColor (PaintLab.addManualColor (PaintLab.addManualColor [])))

/-- Claim C1: the spec requires that ids within one palette stay pairwise
distinct and that neither `scanColor` nor `addManualColor` ever adds a
duplicate id.  The code computes the new id as
`(palette.length + 1).toString()`, which collides after a removal: starting
from the reachable palette with distinct ids `["1", "3"]`, both addition
operations append a second entry with id `"3"`, violating the invariant.
This contradicts the spec and the repository's own `generateColorId`
utility (documented "Generate a unique ID for a new palette color"), which
`PaintLab.tsx` does not use. -/
theorem C1_duplicate_id_on_add :
    idsPairwiseDistinct paletteAfterRemove
  ∧ paletteIds paletteAfterRemove = ["1", "3"]
  ∧ paletteIds (PaintLab.addManualColor paletteAfterRemove) = ["1", "3", "3"]
  ∧ ¬ idsPairwiseDistinct (PaintLab.addManualColor paletteAfterRemove)
  ∧ ¬ idsPairwiseDistinct (PaintLab.scanColorAdd paletteAfterRemove (10, 20, 30)) := by
  refine ⟨by decide, by decide, by decide, by decide, by decide⟩

/-- Claim C2: `generateColorId` returns the smallest unused decimal id among
`"1"`..`"99"` when one exists, else the first unused letter `"A"`..`"Z"`,
and only falls back to a random token (modelled as `none`) when all 125
candidates are taken; ids returned by the first two tiers are never already
in use.  Concretely, with `{"1".."50"}` occupied it returns `"51"` and with
`{"1".."99"}` occupied it returns `"A"`. -/
theorem C2_generateColorId_allocation :
    V2.generateColorId ((List.range 50).map (fun i => toString (i + 1))) = some "51"
  ∧ V2.generateColorId ((List.range 99).map (fun i => toString (i + 1))) = some "A"
  ∧ (∀ ids s, V2.generateColorId ids = some s → s ∉ ids)
  ∧ (∀ ids m, 1 ≤ m → m ≤ 99 → toString m ∉ ids →
      ∃ k, V2.generateColorId ids = some (toString k) ∧ 1 ≤ k ∧ k ≤ 99 ∧ toString k ∉ ids ∧
        ∀ j, 1 ≤ j → j < k → toString j ∈ ids)
  ∧ (∀ ids, (∀ j, 1 ≤ j → j ≤ 99 → toString j ∈ ids) →
      ∀ c, c ∈ V2.letterIdCandidates → c ∉ ids →
      ∃ d l1 l2, V2.generateColorId ids = some d ∧ d ∉ ids ∧
        V2.letterIdCandidates = l1 ++ d :: l2 ∧ ∀ e ∈ l1, e ∈ ids)
  ∧ (∀ ids, V2.generateColorId ids = none ↔
      ((∀ j, 1 ≤ j → j ≤ 99 → toString j ∈ ids) ∧ ∀ c ∈ V2.letterIdCandidates, c ∈ ids)) := by
  refine ⟨by decide, by decide, ?_, ?_, ?_, ?_⟩
  · intro ids s h
    unfold V2.generateColorId at h
    cases hn : V2.firstUnusedId ids V2.numericIdCandidates with
    | some c =>
      rw [hn] at h
      obtain ⟨_, _, _, _, hnot⟩ := V2.firstUnusedId_some ids _ _ hn
      cases h
      exact hnot
    | none =>
      rw [hn] at h
      obtain ⟨_, _, _, _, hnot⟩ := V2.firstUnusedId_some ids _ _ h
      exact hnot
  · intro ids m h1m hm99 hfree
    cases hn : V2.firstUnusedId ids V2.numericIdCandidates with
    | none =>
      exact absurd ((V2.firstUnusedId_none_iff ids _).mp hn _ (V2.numeric_mem m h1m hm99)) hfree
    | some c =>
      obtain ⟨l1, l2, hsplit, hl1, hnot⟩ := V2.firstUnusedId_some ids _ _ hn
      obtain ⟨hcval, hk, hbelow⟩ := V2.numeric_split l1 l2 c hsplit
      refine ⟨l1.length + 1, ?_, by omega, by omega, hcval ▸ hnot, ?_⟩
      · unfold V2.generateColorId
        rw [hn, hcval]
      · intro j hj1 hjk
        exact hl1 _ (hbelow j hj1 (by omega))
  · intro ids hall c hc hcfree
    have hnum : V2.firstUnusedId ids V2.numericIdCandidates = none := by
      rw [V2.firstUnusedId_none_iff]
      intro d hd
      obtain ⟨j, h1, h2, rfl⟩ := V2.numeric_char d hd
      exact hall j h1 h2
    have hlet : V2.firstUnusedId ids V2.letterIdCandidates ≠ none := by
      intro h
      exact hcfree ((V2.firstUnusedId_none_iff ids _).mp h c hc)
    cases hl : V2.firstUnusedId ids V2.letterIdCandidates with
    | none => exact absurd hl hlet
    | some d =>
      obtain ⟨l1, l2, hsplit, hl1, hnot⟩ := V2.firstUnusedId_some ids _ _ hl
      refine ⟨d, l1, l2, ?_, hnot, hsplit, hl1⟩
      unfold V2.generateColorId
      rw [hnum, hl]
  · intro ids
    constructor
    · intro h
      unfold V2.generateColorId at h
      cases hn : V2.firstUnusedId ids V2.numericIdCandidates with
      | some c => rw [hn] at h; cases h
      | none =>
        rw [hn] at h
        refine ⟨?_, (V2.firstUnusedId_none_iff ids _).mp h⟩
        intro j h1 h2
        exact (V2.firstUnusedId_none_iff ids _).mp hn _ (V2.numeric_mem j h1 h2)
    · rintro ⟨hnum, hlet⟩
      have h1 : V2.firstUnusedId ids V2.numericIdCandidates = none := by
        rw [V2.firstUnusedId_none_iff]
        intro d hd
        obtain ⟨j, ha, hb, rfl⟩ := V2.numeric_char d hd
        exact hnum j ha hb
      have h2 : V2.firstUnusedId ids V2.letterIdCandidates = none :=
        (V2.firstUnusedId_none_iff ids _).mpr hlet
      unfold V2.generateColorId
      rw [h1, h2]

/-- Witness for C2: applying the allocation theorem at the concrete palette
ids `["1", "3"]`, whose allocated id `"2"` is indeed not already in use. -/
theorem C2_generateColorId_allocation_witness : "2" ∉ (["1", "3"] : List String) :=
  C2_generateColorId_allocation.2.2.1 ["1", "3"] "2" (by decide)

/-- Truthiness of an optional JS number: an absent field (`undefined`) and
`0` are falsy. -/
def jsTruthyInt : Option Int → Bool
  | none => false
  | some v => v != 0

/-- JS `a || b` on optional numbers: yields `a` when truthy, else `b`. -/
def jsOrInt (a b : Option Int) : Option Int :=
  if jsTruthyInt a then a else b

/-- Truthiness of an optional JS string: an absent field and `''` are falsy. -/
def jsTruthyStr : Option String → Bool
  | none => false
  | some s => s != ""

/-- JS `a || b` on optional strings. -/
def jsOrStr (a b : Option String) : Option String :=
  if jsTruthyStr a then a else b

/-- JS `a || d` with a mandatory string default, as in `color.note || ''` and
`data?.detail || 'Unknown error'`. -/
def jsOrStrD (a : Option String) (d : String) : String :=
  (jsOrStr a (some d)).getD d

/-- Source image handle; only its name is observable to the embedded logic. -/
structure ImageFile where
  name : String
deriving DecidableEq, Repr

/-- Wire form of one palette entry, `{id, rgb, note}` with `note` defaulted
to the empty string (from `formatPaletteForAPI` in `utils.ts`). -/
structure WireColor where
  id : String
  rgb : ℕ × ℕ × ℕ
  note : String
deriving DecidableEq, Repr

/-- Raw success payload of the `/generate` endpoint; each field that the
service may send in either naming convention appears twice, `none` modelling
an absent field. -/
structure RawGenerationResponse where
  success : Bool
  preview : String
  template : String
  template_svg : Option String
  templateSvg : Option String
  color_key : Option String
  colorKey : Option String
  dimensions : ℕ × ℕ
  region_count : Option Int
  regionCount : Option Int
  colors_used : Option Int
  colorsUsed : Option Int
deriving DecidableEq, Repr

/-- Canonical GenerationResult shape from `types.ts`. -/
structure GenerationResult where
  success : Bool
  preview : String
  template : String
  templateSvg : Option String
  colorKey : Option String
  dimensions : ℕ × ℕ
  regionCount : Int
  colorsUsed : Int
deriving DecidableEq, Repr

namespace V2

/-- formatPaletteForAPI from `utils.ts`: maps each color to
`{id, rgb, note: color.note || ''}` (serialization by value). -/
def formatPaletteForAPI (palette : List PaletteColor) : List WireColor :=
  palette.map (fun color => { id := color.id, rgb := color.rgb, note := jsOrStrD color.note "" })

/-- The multipart form body issued by `generatePaintByNumber`: `file`,
`palette` (serialized) and `threshold` (the complexity as a string). -/
structure GenerateRequest where
  file : ImageFile
  palette : List WireColor
  threshold : String
deriving DecidableEq, Repr

/-- Possible outcomes of the single POST to `/generate`, as distinguished by
the catch block of `generatePaintByNumber`: a 2xx payload, an HTTP error
response with a status and optional `detail`, no response at all
(`axiosError.request` set), or a non-axios failure that is rethrown. -/
inductive ServerOutcome where
  | ok (data : RawGenerationResponse)
  | httpError (status : ℕ) (detail : Option String)
  | noResponse
  | setupFailure (message : String)
deriving DecidableEq, Repr

/-- Response-field normalization from `generatePaintByNumber` (utils.ts
lines 215-226): `template_svg || templateSvg`, `color_key || colorKey`,
`region_count || regionCount || 0`, `colors_used || colorsUsed || 0`. -/
def normalizeGenerationResponse (data : RawGenerationResponse) : GenerationResult :=
  { success := data.success
    preview := data.preview
    template := data.template
    templateSvg := jsOrStr data.template_svg data.templateSvg
    colorKey := jsOrStr data.color_key data.colorKey
    dimensions := data.dimensions
    regionCount := (jsOrInt (jsOrInt data.region_count data.regionCount) (some 0)).getD 0
    colorsUsed := (jsOrInt (jsOrInt data.colors_used data.colorsUsed) (some 0)).getD 0 }

/-- Status-to-message mapping of the catch block of `generatePaintByNumber`
(utils.ts lines 236-247), with `detail = data?.detail || 'Unknown error'`. -/
def mapGenerateHttpError (status : ℕ) (detail? : Option String) : String :=
  let detail := jsOrStrD detail? "Unknown error"
  if status = 400 then "Invalid request: " ++ detail
  else if status = 413 then "Image file is too large. Maximum size is 10MB."
  else if status = 415 then "Unsupported file type. Use PNG, JPEG, or WEBP."
  else if status = 500 then "Server error: " ++ detail
  else "Request failed (" ++ toString status ++ "): " ++ detail

/-- The request built once validation passes. -/
def builtRequest (f : ImageFile) (palette : List PaletteColor) (complexity : Int) :
    GenerateRequest :=
  { file := f, palette := formatPaletteForAPI palette, threshold := toString complexity }

/-- generatePaintByNumber from `utils.ts` (complexity-slider flow): validate
file presence, palette size (at least 2) and complexity range (1..100), then
issue exactly one request and map the outcome.  The second component lists
the network requests issued during the call. -/
def generatePaintByNumber (file : Option ImageFile) (palette : List PaletteColor)
    (complexity : Int) (server : GenerateRequest → ServerOutcome) :
    Except String GenerationResult × List GenerateRequest :=
  match file with
  | none => (Except.error "No image file provided", [])
  | some f =>
    if palette.length < 2 then
      (Except.error "Palette must have at least 2 colors", [])
    else if complexity < 1 ∨ complexity > 100 then
      (Except.error "Complexity must be between 1 and 100", [])
    else
      let req := builtRequest f palette complexity
      match server req with
      | ServerOutcome.ok data => (Except.ok (normalizeGenerationResponse data), [req])
      | ServerOutcome.httpError status detail? =>
          (Except.error (mapGenerateHttpError status detail?), [req])
      | ServerOutcome.noResponse =>
          (Except.error "Could not connect to server. Please check your internet connection.",
            [req])
      | ServerOutcome.setupFailure message => (Except.error message, [req])

end V2

/-- Claim C3: the complexity-slider `generatePaintByNumber` fails fast with
no network request when no image file is provided, when the palette has
fewer than 2 entries, or when the complexity lies outside 1..100, and the
three precondition violations carry three pairwise distinct human-readable
messages. -/
theorem C3_validation_fails_fast :
    (∀ palette complexity server,
      V2.generatePaintByNumber none palette complexity server
        = (Except.error "No image file provided", []))
  ∧ (∀ f palette complexity server, palette.length < 2 →
      V2.generatePaintByNumber (some f) palette complexity server
        = (Except.error "Palette must have at least 2 colors", []))
  ∧ (∀ f palette complexity server, 2 ≤ palette.length →
      (complexity < 1 ∨ complexity > 100) →
      V2.generatePaintByNumber (some f) palette complexity server
        = (Except.error "Complexity must be between 1 and 100", []))
  ∧ ("No image file provided" ≠ "Palette must have at least 2 colors"
      ∧ "No image file provided" ≠ "Complexity must be between 1 and 100"
      ∧ "Palette must have at least 2 colors" ≠ "Complexity must be between 1 and 100") := by
  refine ⟨?_, ?_, ?_, by decide, by decide, by decide⟩
  · intro palette complexity server
    rfl
  · intro f palette complexity server h
    simp [V2.generatePaintByNumber, h]
  · intro f palette complexity server h hc
    have h2 : ¬ palette.length < 2 := by omega
    simp [V2.generatePaintByNumber, h2, hc]

/-- Witness for C3: a one-color palette with a present file and in-range
complexity is rejected with the palette message and no request. -/
theorem C3_validation_fails_fast_witness :
    V2.generatePaintByNumber (some { name := "photo.jpg" })
      [{ id := "1", rgb := (255, 0, 0), note := none }] 50 (fun _ => V2.ServerOutcome.noResponse)
      = (Except.error "Palette must have at least 2 colors", []) :=
  C3_validation_fails_fast.2.1 { name := "photo.jpg" }
    [{ id := "1", rgb := (255, 0, 0), note := none }] 50 (fun _ => V2.ServerOutcome.noResponse)
    (by decide)

/-- Concrete response carrying both naming conventions with different
values, to decide which convention the client prefers. -/
def rawBothConventions : RawGenerationResponse :=
  { success := true, preview := "p", template := "t",
    template_svg := none, templateSvg := none,
    color_key := none, colorKey := none,
    dimensions := (800, 400),
    region_count := some 3, regionCount := some 7,
    colors_used := some 2, colorsUsed := some 5 }

/-- Claim C4 counterexample: on a response carrying `region_count: 3` and
`regionCount: 7` simultaneously, the client returns 3 — it prefers the
snake_case field, not the canonical camelCase field as the claim states
(`region_count || regionCount || 0` tries snake_case first); likewise for
`colors_used`/`colorsUsed`. -/
theorem C4_camel_preference_counterexample :
    (V2.normalizeGenerationResponse rawBothConventions).regionCount = 3
  ∧ (V2.normalizeGenerationResponse rawBothConventions).regionCount ≠ 7
  ∧ (V2.normalizeGenerationResponse rawBothConventions).colorsUsed = 2
  ∧ (V2.normalizeGenerationResponse rawBothConventions).colorsUsed ≠ 5 := by
  refine ⟨by decide, by decide, by decide, by decide⟩

/-- Claim C4 as amended: normalization is total over both conventions —
`region_count: 7` alone yields 7, neither field present yields 0 (likewise
for `colorsUsed`) — but when both conventions are present the snake_case
field is preferred whenever its value is truthy (nonzero); the camelCase
value is used only when the snake_case field is absent or `0`, and a falsy
camelCase fallback still yields 0. -/
theorem C4_response_normalization :
    (∀ d : RawGenerationResponse, d.region_count = some 7 →
      (V2.normalizeGenerationResponse d).regionCount = 7)
  ∧ (∀ d : RawGenerationResponse, d.region_count = none → d.regionCount = none →
      (V2.normalizeGenerationResponse d).regionCount = 0)
  ∧ (∀ (d : RawGenerationResponse) (v : Int), d.region_count = some v → v ≠ 0 →
      (V2.normalizeGenerationResponse d).regionCount = v)
  ∧ (∀ (d : RawGenerationResponse) (v : Int),
      (d.region_count = none ∨ d.region_count = some 0) → d.regionCount = some v → v ≠ 0 →
      (V2.normalizeGenerationResponse d).regionCount = v)
  ∧ (∀ (d : RawGenerationResponse),
      (d.region_count = none ∨ d.region_count = some 0) →
      (d.regionCount = none ∨ d.regionCount = some 0) →
      (V2.normalizeGenerationResponse d).regionCount = 0)
  ∧ (∀ (d : RawGenerationResponse) (v : Int), d.colors_used = some v → v ≠ 0 →
      (V2.normalizeGenerationResponse d).colorsUsed = v)
  ∧ (∀ d : RawGenerationResponse, d.colors_used = none → d.colorsUsed = none →
      (V2.normalizeGenerationResponse d).colorsUsed = 0) := by
  refine ⟨?_, ?_, ?_, ?_, ?_, ?_, ?_⟩
  · intro d h
    simp [V2.normalizeGenerationResponse, jsOrInt, jsTruthyInt, h]
  · intro d h1 h2
    simp [V2.normalizeGenerationResponse, jsOrInt, jsTruthyInt, h1, h2]
  · intro d v h hv
    simp [V2.normalizeGenerationResponse, jsOrInt, jsTruthyInt, h, hv]
  · intro d v h1 h2 hv
    rcases h1 with h1 | h1 <;>
      simp [V2.normalizeGenerationResponse, jsOrInt, jsTruthyInt, h1, h2, hv]
  · intro d h1 h2
    rcases h1 with h1 | h1 <;> rcases h2 with h2 | h2 <;>
      simp [V2.normalizeGenerationResponse, jsOrInt, jsTruthyInt, h1, h2]
  · intro d v h hv
    simp [V2.normalizeGenerationResponse, jsOrInt, jsTruthyInt, h, hv]
  · intro d h1 h2
    simp [V2.normalizeGenerationResponse, jsOrInt, jsTruthyInt, h1, h2]

/-- Concrete response carrying only the snake_case `region_count: 7`. -/
def rawSnakeOnly : RawGenerationResponse :=
  { success := true, preview := "p", template := "t",
    template_svg := none, templateSvg := none,
    color_key := none, colorKey := none,
    dimensions := (800, 400),
    region_count := some 7, regionCount := none,
    colors_used := none, colorsUsed := none }

/-- Witness for C4: on a response with only `region_count: 7` the canonical
result's regionCount equals 7. -/
theorem C4_response_normalization_witness :
    (V2.normalizeGenerationResponse rawSnakeOnly).regionCount = 7 :=
  C4_response_normalization.1 rawSnakeOnly rfl

/-- Claim C7: on a failed generation request with valid inputs, the outcome
maps to exactly one typed error: 400 echoes the server `detail`, 413 and 415
yield fixed messages ignoring `detail`, 500 echoes `detail`, any other
non-2xx status yields a generic message containing the status and `detail`,
and receiving no response yields a fixed connectivity message. -/
theorem C7_error_mapping :
    ∀ (f : ImageFile) (palette : List PaletteColor) (complexity : Int)
      (server : V2.GenerateRequest → V2.ServerOutcome),
      2 ≤ palette.length → 1 ≤ complexity → complexity ≤ 100 →
      let req := V2.builtRequest f palette complexity
      (∀ d, d ≠ "" → server req = V2.ServerOutcome.httpError 400 (some d) →
        V2.generatePaintByNumber (some f) palette complexity server
          = (Except.error ("Invalid request: " ++ d), [req]))
    ∧ (∀ d?, server req = V2.ServerOutcome.httpError 413 d? →
        V2.generatePaintByNumber (some f) palette complexity server
          = (Except.error "Image file is too large. Maximum size is 10MB.", [req]))
    ∧ (∀ d?, server req = V2.ServerOutcome.httpError 415 d? →
        V2.generatePaintByNumber (some f) palette complexity server
          = (Except.error "Unsupported file type. Use PNG, JPEG, or WEBP.", [req]))
    ∧ (∀ d, d ≠ "" → server req = V2.ServerOutcome.httpError 500 (some d) →
        V2.generatePaintByNumber (some f) palette complexity server
          = (Except.error ("Server error: " ++ d), [req]))
    ∧ (∀ status d, status ≠ 400 → status ≠ 413 → status ≠ 415 → status ≠ 500 →
        ¬ (200 ≤ status ∧ status < 300) → d ≠ "" →
        server req = V2.ServerOutcome.httpError status (some d) →
        V2.generatePaintByNumber (some f) palette complexity server
          = (Except.error ("Request failed (" ++ toString status ++ "): " ++ d), [req]))
    ∧ (server req = V2.ServerOutcome.noResponse →
        V2.generatePaintByNumber (some f) palette complexity server
          = (Except.error
              "Could not connect to server. Please check your internet connection.", [req])) := by
  intro f palette complexity server hpal hc1 hc2
  have h2 : ¬ palette.length < 2 := by omega
  have hcx : ¬ (complexity < 1 ∨ complexity > 100) := by omega
  refine ⟨?_, ?_, ?_, ?_, ?_, ?_⟩
  · intro d hd hsrv
    simp [V2.generatePaintByNumber, h2, hcx, hsrv, V2.mapGenerateHttpError, jsOrStrD, jsOrStr,
      jsTruthyStr, hd]
  · intro d? hsrv
    simp [V2.generatePaintByNumber, h2, hcx, hsrv, V2.mapGenerateHttpError]
  · intro d? hsrv
    simp [V2.generatePaintByNumber, h2, hcx, hsrv, V2.mapGenerateHttpError]
  · intro d hd hsrv
    simp [V2.generatePaintByNumber, h2, hcx, hsrv, V2.mapGenerateHttpError, jsOrStrD, jsOrStr,
      jsTruthyStr, hd]
  · intro status d hs1 hs2 hs3 hs4 _ hd hsrv
    simp [V2.generatePaintByNumber, h2, hcx, hsrv, V2.mapGenerateHttpError, jsOrStrD, jsOrStr,
      jsTruthyStr, hd, hs1, hs2, hs3, hs4]
  · intro hsrv
    simp [V2.generatePaintByNumber, h2, hcx, hsrv]

/-- Witness for C7: a two-color palette, complexity 50, and a server
answering 400 with detail `"bad palette"` produce the invalid-request
message echoing the detail. -/
theorem C7_error_mapping_witness :
    V2.generatePaintByNumber (some { name := "photo.jpg" })
      [{ id := "1", rgb := (255, 0, 0), note := none },
       { id := "2", rgb := (0, 0, 255), note := none }] 50
      (fun _ => V2.ServerOutcome.httpError 400 (some "bad palette"))
      = (Except.error ("Invalid request: " ++ "bad palette"),
         [V2.builtRequest { name := "photo.jpg" }
           [{ id := "1", rgb := (255, 0, 0), note := none },
            { id := "2", rgb := (0, 0, 255), note := none }] 50]) :=
  (C7_error_mapping { name := "photo.jpg" }
    [{ id := "1", rgb := (255, 0, 0), note := none },
     { id := "2", rgb := (0, 0, 255), note := none }] 50
    (fun _ => V2.ServerOutcome.httpError 400 (some "bad palette"))
    (by decide) (by decide) (by decide)).1 "bad palette" (by decide) rfl

/-- Session state visible to the generation client; the caller owns the
palette.  The client code never assigns to the palette array or to its
entries, so the embedding threads the state through the call unchanged. -/
structure ClientState where
  palette : List PaletteColor
deriving DecidableEq, Repr

namespace V2

/-- State-passing form of `generatePaintByNumber`: the caller's palette is
read to build the request and returned as the post-call state. -/
def generatePaintByNumberRun (file : Option ImageFile) (complexity : Int)
    (server : GenerateRequest → ServerOutcome) (st : ClientState) :
    (Except String GenerationResult × List GenerateRequest) × ClientState :=
  (generatePaintByNumber file st.palette complexity server, st)

end V2

/-- Claim C9: `generatePaintByNumber` never mutates the caller's palette —
the post-call state equals the pre-call state whatever the outcome — and the
palette is serialized by value into the one request issued: every issued
request carries `formatPaletteForAPI palette`, which preserves the length,
order, `id` and `rgb` of every entry and defaults an absent note to the
empty string. -/
theorem C9_palette_not_mutated :
    (∀ (file : Option ImageFile) (complexity : Int)
       (server : V2.GenerateRequest → V2.ServerOutcome) (st : ClientState),
      (V2.generatePaintByNumberRun file complexity server st).2 = st)
  ∧ (∀ (f : ImageFile) (palette : List PaletteColor) (complexity : Int)
       (server : V2.GenerateRequest → V2.ServerOutcome) (req : V2.GenerateRequest),
      req ∈ (V2.generatePaintByNumber (some f) palette complexity server).2 →
      req.palette = V2.formatPaletteForAPI palette)
  ∧ (∀ palette : List PaletteColor, (V2.formatPaletteForAPI palette).length = palette.length)
  ∧ (∀ (palette : List PaletteColor) (i : ℕ)
       (h1 : i < (V2.formatPaletteForAPI palette).length) (h2 : i < palette.length),
      ((V2.formatPaletteForAPI palette).get ⟨i, h1⟩).id = (palette.get ⟨i, h2⟩).id
      ∧ ((V2.formatPaletteForAPI palette).get ⟨i, h1⟩).rgb = (palette.get ⟨i, h2⟩).rgb
      ∧ ((V2.formatPaletteForAPI palette).get ⟨i, h1⟩).note
          = jsOrStrD ((palette.get ⟨i, h2⟩).note) "") := by
  refine ⟨fun _ _ _ _ => rfl, ?_, ?_, ?_⟩
  · intro f palette complexity server req hreq
    unfold V2.generatePaintByNumber at hreq
    by_cases hp : palette.length < 2
    · simp [hp] at hreq
    · by_cases hc : complexity < 1 ∨ complexity > 100
      · simp [hp, hc] at hreq
      · simp only [hp, hc, if_neg, if_false] at hreq
        cases hsrv : server (V2.builtRequest f palette complexity) <;>
          · rw [hsrv] at hreq
            simp at hreq
            subst hreq
            rfl
  · intro palette
    simp [V2.formatPaletteForAPI]
  · intro palette i h1 h2
    simp [V2.formatPaletteForAPI, List.get_eq_getElem, List.getElem_map]

/-- Witness for C9: at a concrete two-color palette the issued request
carries exactly the by-value wire form of the palette. -/
theorem C9_palette_not_mutated_witness :
    V2.builtRequest { name := "photo.jpg" }
      [{ id := "1", rgb := (255, 0, 0), note := none },
       { id := "2", rgb := (0, 0, 255), note := some "sky" }] 50
      ∈ (V2.generatePaintByNumber (some { name := "photo.jpg" })
          [{ id := "1", rgb := (255, 0, 0), note := none },
           { id := "2", rgb := (0, 0, 255), note := some "sky" }] 50
          (fun _ => V2.ServerOutcome.noResponse)).2
    ∧ (V2.builtRequest { name := "photo.jpg" }
        [{ id := "1", rgb := (255, 0, 0), note := none },
         { id := "2", rgb := (0, 0, 255), note := some "sky" }] 50).palette
      = V2.formatPaletteForAPI
          [{ id := "1", rgb := (255, 0, 0), note := none },
           { id := "2", rgb := (0, 0, 255), note := some "sky" }] :=
  ⟨by decide, C9_palette_not_mutated.2.1 { name := "photo.jpg" }
    [{ id := "1", rgb := (255, 0, 0), note := none },
     { id := "2", rgb := (0, 0, 255), note := some "sky" }] 50
    (fun _ => V2.ServerOutcome.noResponse) _ (by decide)⟩

namespace V1

/-- Progress value reported from one axios upload progress event in the v1
`generatePaintByNumber`: `30 + (loaded / total) * 40`. -/
def uploadProgressValue (loaded total : ℕ) : ℚ :=
  30 + (loaded : ℚ) / (total : ℚ) * 40

/-- The sequence of values passed to `onProgress` across one successful v1
`generatePaintByNumber` attempt: 10 before compression, 20 after, 30 before
the POST, one value per upload progress event whose `total` is known
(the code skips events with a falsy `total`), and 100 only after the
response has arrived. -/
def progressTrace (total : ℕ) (loadedSeq : List ℕ) : List ℚ :=
  ([10, 20, 30]
    ++ (if total ≠ 0 then loadedSeq.map (fun l => uploadProgressValue l total) else []))
    ++ [100]

theorem uploadProgressValue_lower (l total : ℕ) (h : total ≠ 0) :
    30 ≤ uploadProgressValue l total := by
  unfold uploadProgressValue
  have ht : (0 : ℚ) < total := by positivity
  have : (0 : ℚ) ≤ (l : ℚ) / total * 40 := by positivity
  linarith

theorem uploadProgressValue_upper (l total : ℕ) (h : total ≠ 0) (hl : l ≤ total) :
    uploadProgressValue l total ≤ 70 := by
  unfold uploadProgressValue
  have ht : (0 : ℚ) < total := by positivity
  have hq : (l : ℚ) / total ≤ 1 := by
    rw [div_le_one ht]
    exact_mod_cast hl
  nlinarith

theorem uploadProgressValue_mono (l l' total : ℕ) (h : total ≠ 0) (hll : l ≤ l') :
    uploadProgressValue l total ≤ uploadProgressValue l' total := by
  unfold uploadProgressValue
  have ht : (0 : ℚ) < total := by positivity
  have hdiv : (l : ℚ) / total ≤ (l' : ℚ) / total := by
    gcongr
  linarith

theorem chain'_front_le : List.Chain' (· ≤ ·) ([10, 20, 30] : List ℚ) := by
  simp only [List.chain'_cons, List.chain'_singleton, and_true]
  norm_num

theorem front_mem_lt (v : ℚ) (hv : v ∈ ([10, 20, 30] : List ℚ)) : v < 100 := by
  fin_cases hv <;> norm_num

end V1

/-- Claim C8: across one successful v1 generation attempt with
monotonically advancing upload byte counts, the reported progress sequence
is non-decreasing, ends exactly at 100, and every value reported before the
final (post-response) one is strictly below 100. -/
theorem C8_progress_monotone :
    ∀ (total : ℕ) (loadedSeq : List ℕ),
      List.Chain' (· ≤ ·) loadedSeq → (∀ l ∈ loadedSeq, l ≤ total) →
      List.Chain' (· ≤ ·) (V1.progressTrace total loadedSeq)
    ∧ (V1.progressTrace total loadedSeq).getLast? = some 100
    ∧ ∀ v ∈ (V1.progressTrace total loadedSeq).dropLast, v < 100 := by
  intro total loadedSeq hchain hbound
  by_cases ht : total ≠ 0
  · have htrace : V1.progressTrace total loadedSeq
        = ([10, 20, 30] ++ loadedSeq.map (fun l => V1.uploadProgressValue l total)) ++ [100] := by
      unfold V1.progressTrace
      rw [if_pos ht]
    have hmem : ∀ v ∈ (loadedSeq.map (fun l => V1.uploadProgressValue l total)),
        30 ≤ v ∧ v ≤ 70 := by
      intro v hv
      obtain ⟨l, hl, rfl⟩ := List.mem_map.mp hv
      exact ⟨V1.uploadProgressValue_lower l total ht,
        V1.uploadProgressValue_upper l total ht (hbound l hl)⟩
    have hfront : List.Chain' (· ≤ ·)
        ([10, 20, 30] ++ loadedSeq.map (fun l => V1.uploadProgressValue l total)) := by
      rw [List.chain'_append]
      refine ⟨V1.chain'_front_le, ?_, ?_⟩
      · rw [List.chain'_map]
        exact hchain.imp (fun a b hab => V1.uploadProgressValue_mono a b total ht hab)
      · intro x hx y hy
        have hx30 : (30 : ℚ) = x := by simpa using hx
        have hy' := hmem y (List.mem_of_mem_head? hy)
        rw [← hx30]
        exact hy'.1
    refine ⟨?_, ?_, ?_⟩
    · rw [htrace, List.chain'_append]
      refine ⟨hfront, List.chain'_singleton 100, ?_⟩
      intro x hx y hy
      have hy100 : (100 : ℚ) = y := by simpa using hy
      rw [← hy100]
      have hxmem := List.mem_of_mem_getLast? hx
      rcases List.mem_append.mp hxmem with hx3 | hxm
      · exact (V1.front_mem_lt x hx3).le
      · linarith [(hmem x hxm).2]
    · rw [htrace]
      exact List.getLast?_concat _
    · rw [htrace, List.dropLast_concat]
      intro v hv
      rcases List.mem_append.mp hv with hv3 | hvm
      · exact V1.front_mem_lt v hv3
      · linarith [(hmem v hvm).2]
  · have htrace : V1.progressTrace total loadedSeq = ([10, 20, 30] ++ []) ++ [100] := by
      unfold V1.progressTrace
      rw [if_neg ht]
    refine ⟨?_, ?_, ?_⟩
    · rw [htrace, List.chain'_append]
      refine ⟨by simpa using V1.chain'_front_le, List.chain'_singleton 100, ?_⟩
      intro x hx y hy
      have hy100 : (100 : ℚ) = y := by simpa using hy
      rw [← hy100]
      have hxmem := List.mem_of_mem_getLast? hx
      exact (V1.front_mem_lt x (by simpa using hxmem)).le
    · rw [htrace]
      exact List.getLast?_concat _
    · rw [htrace, List.dropLast_concat]
      intro v hv
      exact V1.front_mem_lt v (by simpa using hv)

/-- Witness for C8: a concrete successful attempt uploading 10 bytes with
events at 4 and 10 bytes has a non-decreasing trace ending at 100. -/
theorem C8_progress_monotone_witness :
    List.Chain' (· ≤ ·) (V1.progressTrace 10 [4, 10])
    ∧ (V1.progressTrace 10 [4, 10]).getLast? = some 100
    ∧ ∀ v ∈ (V1.progressTrace 10 [4, 10]).dropLast, v < 100 :=
  C8_progress_monotone 10 [4, 10]
    (by simp only [List.chain'_cons, List.chain'_singleton, and_true]; norm_num)
    (by intro l hl; fin_cases hl <;> norm_num)

/-- Uniform scale factor named by the spec: `min(1, maxWidth/w, maxHeight/h)`. -/
def scaleFactor (w h maxW maxH : ℕ) : ℚ :=
  min 1 (min ((maxW : ℚ) / (w : ℚ)) ((maxH : ℚ) / (h : ℚ)))

theorem round_mono_q (x y : ℚ) (h : x ≤ y) : round x ≤ round y := by
  rw [round_eq, round_eq]
  exact Int.floor_le_floor (by linarith)

theorem scaleFactor_nonneg (w h maxW maxH : ℕ) : 0 ≤ scaleFactor w h maxW maxH := by
  unfold scaleFactor
  have h1 : (0 : ℚ) ≤ (maxW : ℚ) / (w : ℚ) := by positivity
  have h2 : (0 : ℚ) ≤ (maxH : ℚ) / (h : ℚ) := by positivity
  simp [le_min_iff, h1, h2]

theorem scaleFactor_le_one (w h maxW maxH : ℕ) : scaleFactor w h maxW maxH ≤ 1 :=
  min_le_left _ _

namespace V2

/-- Output pixel dimensions computed by `compressImage` in `utils.ts` v2.0:
when either dimension exceeds its bound, both are multiplied by
`min(maxWidth/width, maxHeight/height)` and rounded to the nearest integer;
otherwise they are kept unchanged. -/
def compressImageDims (w h maxWidth maxHeight : ℕ) : ℤ × ℤ :=
  if maxWidth < w ∨ maxHeight < h then
    (round ((w : ℚ) * min ((maxWidth : ℚ) / (w : ℚ)) ((maxHeight : ℚ) / (h : ℚ))),
     round ((h : ℚ) * min ((maxWidth : ℚ) / (w : ℚ)) ((maxHeight : ℚ) / (h : ℚ))))
  else ((w : ℤ), (h : ℤ))

theorem compressImageDims_eq (w h maxW maxH : ℕ) (hw : 0 < w) (hh : 0 < h) :
    compressImageDims w h maxW maxH
      = (round ((w : ℚ) * scaleFactor w h maxW maxH),
         round ((h : ℚ) * scaleFactor w h maxW maxH)) := by
  have hwq : (0 : ℚ) < (w : ℚ) := by exact_mod_cast hw
  have hhq : (0 : ℚ) < (h : ℚ) := by exact_mod_cast hh
  unfold compressImageDims scaleFactor
  by_cases hover : maxW < w ∨ maxH < h
  · rw [if_pos hover]
    have hlt : min ((maxW : ℚ) / (w : ℚ)) ((maxH : ℚ) / (h : ℚ)) < 1 := by
      rcases hover with hoW | hoH
      · calc min ((maxW : ℚ) / (w : ℚ)) ((maxH : ℚ) / (h : ℚ)) ≤ (maxW : ℚ) / (w : ℚ) :=
            min_le_left _ _
          _ < 1 := by
            rw [div_lt_one hwq]
            exact_mod_cast hoW
      · calc min ((maxW : ℚ) / (w : ℚ)) ((maxH : ℚ) / (h : ℚ)) ≤ (maxH : ℚ) / (h : ℚ) :=
            min_le_right _ _
          _ < 1 := by
            rw [div_lt_one hhq]
            exact_mod_cast hoH
    rw [min_eq_right hlt.le]
  · rw [if_neg hover]
    push_neg at hover
    have h1 : (1 : ℚ) ≤ (maxW : ℚ) / (w : ℚ) := by
      rw [le_div_iff₀ hwq]
      simpa using (by exact_mod_cast hover.1 : (w : ℚ) ≤ (maxW : ℚ))
    have h2 : (1 : ℚ) ≤ (maxH : ℚ) / (h : ℚ) := by
      rw [le_div_iff₀ hhq]
      simpa using (by exact_mod_cast hover.2 : (h : ℚ) ≤ (maxH : ℚ))
    rw [min_eq_left (le_min h1 h2)]
    simp [round_natCast]

theorem compressImageDims_bounds (w h maxW maxH : ℕ) (hw : 0 < w) (hh : 0 < h) :
    (compressImageDims w h maxW maxH).1 ≤ (maxW : ℤ)
  ∧ (compressImageDims w h maxW maxH).2 ≤ (maxH : ℤ)
  ∧ (compressImageDims w h maxW maxH).1 ≤ (w : ℤ)
  ∧ (compressImageDims w h maxW maxH).2 ≤ (h : ℤ) := by
  have hwq : (0 : ℚ) < (w : ℚ) := by exact_mod_cast hw
  have hhq : (0 : ℚ) < (h : ℚ) := by exact_mod_cast hh
  rw [compressImageDims_eq w h maxW maxH hw hh]
  set s := scaleFactor w h maxW maxH with hs
  have hs0 : 0 ≤ s := scaleFactor_nonneg w h maxW maxH
  have hs1 : s ≤ 1 := scaleFactor_le_one w h maxW maxH
  have hsW : s ≤ (maxW : ℚ) / (w : ℚ) := le_trans (min_le_right _ _) (min_le_left _ _)
  have hsH : s ≤ (maxH : ℚ) / (h : ℚ) := le_trans (min_le_right _ _) (min_le_right _ _)
  have hwW : (w : ℚ) * s ≤ (maxW : ℚ) := by
    calc (w : ℚ) * s ≤ (w : ℚ) * ((maxW : ℚ) / (w : ℚ)) :=
          mul_le_mul_of_nonneg_left hsW hwq.le
      _ = (maxW : ℚ) := by field_simp
  have hhH : (h : ℚ) * s ≤ (maxH : ℚ) := by
    calc (h : ℚ) * s ≤ (h : ℚ) * ((maxH : ℚ) / (h : ℚ)) :=
          mul_le_mul_of_nonneg_left hsH hhq.le
      _ = (maxH : ℚ) := by field_simp
  have hww : (w : ℚ) * s ≤ (w : ℚ) := by nlinarith
  have hhh : (h : ℚ) * s ≤ (h : ℚ) := by nlinarith
  refine ⟨?_, ?_, ?_, ?_⟩
  · calc round ((w : ℚ) * s) ≤ round ((maxW : ℚ)) := round_mono_q _ _ hwW
      _ = (maxW : ℤ) := round_natCast maxW
  · calc round ((h : ℚ) * s) ≤ round ((maxH : ℚ)) := round_mono_q _ _ hhH
      _ = (maxH : ℤ) := round_natCast maxH
  · calc round ((w : ℚ) * s) ≤ round ((w : ℚ)) := round_mono_q _ _ hww
      _ = (w : ℤ) := round_natCast w
  · calc round ((h : ℚ) * s) ≤ round ((h : ℚ)) := round_mono_q _ _ hhh
      _ = (h : ℤ) := round_natCast h

end V2

namespace V1

/-- Output dimensions computed by `compressImage` in the v1 utility module:
one `maxDimension` bound; the larger side is set to `maxDimension` and the
other side scaled proportionally, with no rounding anywhere — the exact
rational values are assigned to the canvas. -/
def compressImageDims (w h maxDimension : ℕ) : ℚ × ℚ :=
  if h < w ∧ maxDimension < w then
    ((maxDimension : ℚ), (h : ℚ) / (w : ℚ) * (maxDimension : ℚ))
  else if maxDimension < h then
    ((w : ℚ) / (h : ℚ) * (maxDimension : ℚ), (maxDimension : ℚ))
  else ((w : ℚ), (h : ℚ))

theorem compressDims_scale_eq (w h M : ℕ) (hw : 0 < w) (hh : 0 < h) :
    compressImageDims w h M
      = ((w : ℚ) * scaleFactor w h M M, (h : ℚ) * scaleFactor w h M M) := by
  have hwq : (0 : ℚ) < (w : ℚ) := by exact_mod_cast hw
  have hhq : (0 : ℚ) < (h : ℚ) := by exact_mod_cast hh
  unfold compressImageDims scaleFactor
  by_cases h1 : h < w ∧ M < w
  · rw [if_pos h1]
    have hwM : (M : ℚ) / (w : ℚ) < 1 := by
      rw [div_lt_one hwq]
      exact_mod_cast h1.2
    have hhw : (M : ℚ) / (w : ℚ) ≤ (M : ℚ) / (h : ℚ) := by
      apply div_le_div_of_nonneg_left (by positivity) hhq
      exact_mod_cast h1.1.le
    rw [min_eq_left hhw, min_eq_right hwM.le]
    refine Prod.ext_iff.mpr ⟨?_, ?_⟩
    · field_simp
    · ring
  · rw [if_neg h1]
    by_cases h2 : M < h
    · rw [if_pos h2]
      have hwh : w ≤ h := by
        by_contra hcon
        push_neg at hcon
        exact h1 ⟨hcon, lt_trans h2 hcon⟩
      have hhM : (M : ℚ) / (h : ℚ) < 1 := by
        rw [div_lt_one hhq]
        exact_mod_cast h2
      have hmin : (M : ℚ) / (h : ℚ) ≤ (M : ℚ) / (w : ℚ) := by
        apply div_le_div_of_nonneg_left (by positivity) hwq
        exact_mod_cast hwh
      rw [min_eq_right hmin, min_eq_right hhM.le]
      refine Prod.ext_iff.mpr ⟨?_, ?_⟩
      · ring
      · field_simp
    · rw [if_neg h2]
      push_neg at h2
      have hwM : w ≤ M := by
        by_contra hcon
        push_neg at hcon
        rcases Nat.lt_or_ge h w with hhw | hwh
        · exact h1 ⟨hhw, hcon⟩
        · omega
      have hq1 : (1 : ℚ) ≤ (M : ℚ) / (w : ℚ) := by
        rw [le_div_iff₀ hwq]
        simpa using (by exact_mod_cast hwM : (w : ℚ) ≤ (M : ℚ))
      have hq2 : (1 : ℚ) ≤ (M : ℚ) / (h : ℚ) := by
        rw [le_div_iff₀ hhq]
        simpa using (by exact_mod_cast h2 : (h : ℚ) ≤ (M : ℚ))
      rw [min_eq_left (le_min hq1 hq2)]
      simp

theorem compressDims_scale_bounds (w h M : ℕ) (hw : 0 < w) (hh : 0 < h) :
    (compressImageDims w h M).1 ≤ (M : ℚ)
  ∧ (compressImageDims w h M).2 ≤ (M : ℚ)
  ∧ (compressImageDims w h M).1 ≤ (w : ℚ)
  ∧ (compressImageDims w h M).2 ≤ (h : ℚ)
  ∧ (compressImageDims w h M).1 * (h : ℚ) = (compressImageDims w h M).2 * (w : ℚ) := by
  have hwq : (0 : ℚ) < (w : ℚ) := by exact_mod_cast hw
  have hhq : (0 : ℚ) < (h : ℚ) := by exact_mod_cast hh
  rw [compressDims_scale_eq w h M hw hh]
  dsimp only
  set s := scaleFactor w h M M with hs
  have hs0 : 0 ≤ s := scaleFactor_nonneg w h M M
  have hs1 : s ≤ 1 := scaleFactor_le_one w h M M
  have hsW : s ≤ (M : ℚ) / (w : ℚ) := le_trans (min_le_right _ _) (min_le_left _ _)
  have hsH : s ≤ (M : ℚ) / (h : ℚ) := le_trans (min_le_right _ _) (min_le_right _ _)
  refine ⟨?_, ?_, by nlinarith, by nlinarith, by ring⟩
  · calc (w : ℚ) * s ≤ (w : ℚ) * ((M : ℚ) / (w : ℚ)) :=
        mul_le_mul_of_nonneg_left hsW hwq.le
      _ = (M : ℚ) := by field_simp
  · calc (h : ℚ) * s ≤ (h : ℚ) * ((M : ℚ) / (h : ℚ)) :=
        mul_le_mul_of_nonneg_left hsH hhq.le
      _ = (M : ℚ) := by field_simp

end V1

/-- Claim C5 counterexample: for a 1000×1499 source and the default 1200
bound, the v1 `compressImage` (also cited by the claim) outputs width
`1000/1499·1200 = 1200000/1499`, a non-integral value: the code never
rounds, so the output width differs from the claimed `round(w·s) = 801`. -/
theorem C5_rounding_counterexample :
    (V1.compressImageDims 1000 1499 1200).1
      ≠ ((round ((1000 : ℚ) * scaleFactor 1000 1499 1200 1200) : ℤ) : ℚ) := by
  have h1 : (V1.compressImageDims 1000 1499 1200).1 = (1000 : ℚ) / 1499 * 1200 := by
    norm_num [V1.compressImageDims]
  have hs : scaleFactor 1000 1499 1200 1200 = 1200 / 1499 := by
    unfold scaleFactor
    rw [min_eq_right (by norm_num), min_eq_right (by norm_num)]
    norm_num
  have h2 : round ((1000 : ℚ) * scaleFactor 1000 1499 1200 1200) = 801 := by
    rw [hs, round_eq, Int.floor_eq_iff]
    norm_num
  rw [h1, h2]
  norm_num

/-- Claim C5 as amended: the v2 `compressImage` produces exactly
`(round(w·s), round(h·s))` with `s = min(1, maxWidth/w, maxHeight/h)`, and
its output dimensions are bounded by the configured maxima and by the
original dimensions (downscale-only); the v1 `compressImage` applies the
same uniform scale factor `s = min(1, maxDimension/w, maxDimension/h)` but
without any rounding, producing the exact scaled values — still bounded by
the maximum and the original dimensions, with the aspect ratio preserved
exactly. -/
theorem C5_compress_dimensions :
    (∀ w h maxW maxH : ℕ, 0 < w → 0 < h →
      V2.compressImageDims w h maxW maxH
        = (round ((w : ℚ) * scaleFactor w h maxW maxH),
           round ((h : ℚ) * scaleFactor w h maxW maxH)))
  ∧ (∀ w h maxW maxH : ℕ, 0 < w → 0 < h →
      (V2.compressImageDims w h maxW maxH).1 ≤ (maxW : ℤ)
      ∧ (V2.compressImageDims w h maxW maxH).2 ≤ (maxH : ℤ)
      ∧ (V2.compressImageDims w h maxW maxH).1 ≤ (w : ℤ)
      ∧ (V2.compressImageDims w h maxW maxH).2 ≤ (h : ℤ))
  ∧ (∀ w h M : ℕ, 0 < w → 0 < h →
      V1.compressImageDims w h M
        = ((w : ℚ) * scaleFactor w h M M, (h : ℚ) * scaleFactor w h M M))
  ∧ (∀ w h M : ℕ, 0 < w → 0 < h →
      (V1.compressImageDims w h M).1 ≤ (M : ℚ)
      ∧ (V1.compressImageDims w h M).2 ≤ (M : ℚ)
      ∧ (V1.compressImageDims w h M).1 ≤ (w : ℚ)
      ∧ (V1.compressImageDims w h M).2 ≤ (h : ℚ)
      ∧ (V1.compressImageDims w h M).1 * (h : ℚ)
          = (V1.compressImageDims w h M).2 * (w : ℚ)) :=
  ⟨fun w h maxW maxH hw hh => V2.compressImageDims_eq w h maxW maxH hw hh,
   fun w h maxW maxH hw hh => V2.compressImageDims_bounds w h maxW maxH hw hh,
   fun w h M hw hh => V1.compressDims_scale_eq w h M hw hh,
   fun w h M hw hh => V1.compressDims_scale_bounds w h M hw hh⟩

/-- Witness for C5: a 2000×1000 source under the default 1200×1200 bounds
stays within the bounds and below the source dimensions. -/
theorem C5_compress_dimensions_witness :
    (V2.compressImageDims 2000 1000 1200 1200).1 ≤ (1200 : ℤ)
    ∧ (V2.compressImageDims 2000 1000 1200 1200).2 ≤ (1200 : ℤ)
    ∧ (V2.compressImageDims 2000 1000 1200 1200).1 ≤ (2000 : ℤ)
    ∧ (V2.compressImageDims 2000 1000 1200 1200).2 ≤ (1000 : ℤ) := by
  have h := C5_compress_dimensions.2.1 2000 1000 1200 1200 (by norm_num) (by norm_num)
  exact_mod_cast h

/-- Decoded raster: pixel dimensions plus per-pixel 8-bit RGB channel values
(the channel function is only meaningful inside the bounds). -/
structure Raster where
  width : ℕ
  height : ℕ
  pixel : ℕ → ℕ → ℕ × ℕ × ℕ

/-- Sum of `f` over the sub-rectangle `[x0, x0+w) × [y0, y0+h)`, iterated
row by row exactly like the loop over `imageData.data`. -/
def sumRect (f : ℕ → ℕ → ℕ) (x0 y0 w h : ℕ) : ℕ :=
  ((List.range h).map (fun dy =>
    ((List.range w).map (fun dx => f (x0 + dx) (y0 + dy))).sum)).sum

theorem sumRange_eq {M : Type} [AddCommMonoid M] (f : ℕ → M) (n : ℕ) :
    ((List.range n).map f).sum = ∑ i in Finset.range n, f i := by
  induction n with
  | zero => simp
  | succ m ih => simp [List.range_succ, Finset.sum_range_succ, ih]

theorem sumRect_eq_finset (f : ℕ → ℕ → ℕ) (x0 y0 w h : ℕ) :
    sumRect f x0 y0 w h
      = ∑ p in (Finset.Ico x0 (x0 + w)) ×ˢ (Finset.Ico y0 (y0 + h)), f p.1 p.2 := by
  calc sumRect f x0 y0 w h
      = ∑ j in Finset.range h, ∑ i in Finset.range w, f (x0 + i) (y0 + j) := by
        unfold sumRect
        rw [sumRange_eq]
        refine Finset.sum_congr rfl fun j _ => ?_
        rw [sumRange_eq]
    _ = ∑ y in Finset.Ico y0 (y0 + h), ∑ x in Finset.Ico x0 (x0 + w), f x y := by
        simp only [Finset.sum_Ico_eq_sum_range, Nat.add_sub_cancel_left]
    _ = ∑ x in Finset.Ico x0 (x0 + w), ∑ y in Finset.Ico y0 (y0 + h), f x y :=
        Finset.sum_comm
    _ = ∑ p in (Finset.Ico x0 (x0 + w)) ×ˢ (Finset.Ico y0 (y0 + h)), f p.1 p.2 := by
        rw [Finset.sum_product]

theorem sumRect_congr (f f' : ℕ → ℕ → ℕ) (x0 y0 w h : ℕ)
    (hagree : ∀ x y, x0 ≤ x → x < x0 + w → y0 ≤ y → y < y0 + h → f x y = f' x y) :
    sumRect f x0 y0 w h = sumRect f' x0 y0 w h := by
  rw [sumRect_eq_finset, sumRect_eq_finset]
  refine Finset.sum_congr rfl fun p hp => ?_
  rw [Finset.mem_product, Finset.mem_Ico, Finset.mem_Ico] at hp
  exact hagree p.1 p.2 hp.1.1 hp.1.2 hp.2.1 hp.2.2

/-- One axis of the window named by the claim: side length 10 around the
center, clamped to the image bounds (half-open, as the v2 code reads it). -/
def specWindow1D (dim c : ℕ) : Finset ℕ := Finset.Ico (c - 5) (min dim (c + 5))

/-- One channel of the claim's sampler contract: the arithmetic mean of the
channel over the clamped square neighborhood, rounded to nearest. -/
def specMeanChannel (img : Raster) (cx cy : ℕ) (ch : ℕ × ℕ × ℕ → ℕ) : ℤ :=
  let W := (specWindow1D img.width cx) ×ˢ (specWindow1D img.height cy)
  round ((∑ p in W, (ch (img.pixel p.1 p.2) : ℚ)) / (W.card : ℚ))

/-- The claim's sampler contract for all three channels. -/
def specNeighborhoodMean (img : Raster) (cx cy : ℕ) : ℤ × ℤ × ℤ :=
  (specMeanChannel img cx cy (fun p => p.1),
   specMeanChannel img cx cy (fun p => p.2.1),
   specMeanChannel img cx cy (fun p => p.2.2))

namespace V2

/-- extractColorFromImage from `utils.ts` v2.0: read the `getImageData`
sub-rectangle from `max(0, center - sampleSize/2)` (inclusive) to
`min(dim, center + sampleSize/2)` (exclusive), average each channel over it
and round (`Math.round(sum / count)`); the center defaults to the image
center.  Nat subtraction models the `Math.max(0, ...)` clamp. -/
def extractColorFromImage (img : Raster) (x? y? : Option ℕ) (sampleSize : ℕ) : ℤ × ℤ × ℤ :=
  let centerX := x?.getD (img.width / 2)
  let centerY := y?.getD (img.height / 2)
  let halfSample := sampleSize / 2
  let startX := centerX - halfSample
  let startY := centerY - halfSample
  let endX := min img.width (centerX + halfSample)
  let endY := min img.height (centerY + halfSample)
  let w := endX - startX
  let h := endY - startY
  let count := w * h
  (round ((sumRect (fun x y => (img.pixel x y).1) startX startY w h : ℚ) / (count : ℚ)),
   round ((sumRect (fun x y => (img.pixel x y).2.1) startX startY w h : ℚ) / (count : ℚ)),
   round ((sumRect (fun x y => (img.pixel x y).2.2) startX startY w h : ℚ) / (count : ℚ)))

theorem extractColorFromImage_eq_spec (img : Raster) (cx cy : ℕ)
    (hx : cx < img.width) (hy : cy < img.height) :
    extractColorFromImage img (some cx) (some cy) 10 = specNeighborhoodMean img cx cy := by
  unfold extractColorFromImage specNeighborhoodMean specMeanChannel specWindow1D
  simp only [Option.getD_some]
  have hsx : cx - 5 + (min img.width (cx + 5) - (cx - 5)) = min img.width (cx + 5) := by
    omega
  have hsy : cy - 5 + (min img.height (cy + 5) - (cy - 5)) = min img.height (cy + 5) := by
    omega
  have hcard : ((Finset.Ico (cx - 5) (min img.width (cx + 5)))
      ×ˢ (Finset.Ico (cy - 5) (min img.height (cy + 5)))).card
      = (min img.width (cx + 5) - (cx - 5)) * (min img.height (cy + 5) - (cy - 5)) := by
    rw [Finset.card_product, Nat.card_Ico, Nat.card_Ico]
  refine Prod.ext_iff.mpr ⟨?_, Prod.ext_iff.mpr ⟨?_, ?_⟩⟩ <;>
    · simp only []
      rw [sumRect_eq_finset, hsx, hsy, hcard]
      norm_num [Nat.cast_sum]

theorem extractColorFromImage_congr (img img' : Raster)
    (hw : img.width = img'.width) (hh : img.height = img'.height)
    (hpix : ∀ x y, x < img.width → y < img.height → img.pixel x y = img'.pixel x y)
    (x? y? : Option ℕ) (s : ℕ) :
    extractColorFromImage img x? y? s = extractColorFromImage img' x? y? s := by
  obtain ⟨w, h, pix⟩ := img
  obtain ⟨w', h', pix'⟩ := img'
  simp only at hw hh hpix
  subst hw
  subst hh
  unfold extractColorFromImage
  simp only
  have key : ∀ ch : ℕ × ℕ × ℕ → ℕ,
      sumRect (fun x y => ch (pix x y))
        (x?.getD (w / 2) - s / 2) (y?.getD (h / 2) - s / 2)
        (min w (x?.getD (w / 2) + s / 2) - (x?.getD (w / 2) - s / 2))
        (min h (y?.getD (h / 2) + s / 2) - (y?.getD (h / 2) - s / 2))
      = sumRect (fun x y => ch (pix' x y))
        (x?.getD (w / 2) - s / 2) (y?.getD (h / 2) - s / 2)
        (min w (x?.getD (w / 2) + s / 2) - (x?.getD (w / 2) - s / 2))
        (min h (y?.getD (h / 2) + s / 2) - (y?.getD (h / 2) - s / 2)) := by
    intro ch
    apply sumRect_congr
    intro x y hx1 hx2 hy1 hy2
    rw [hpix x y (by omega) (by omega)]
  rw [key (fun p => p.1), key (fun p => p.2.1), key (fun p => p.2.2)]

end V2

namespace V1

/-- `Math.max(0, Math.min(p, size - 1))` from the v1 sampler: clamp an
integer coordinate into `[0, size - 1]`. -/
def clampCoord (v : ℤ) (upper : ℕ) : ℕ :=
  (max 0 (min v ((upper : ℤ) - 1))).toNat

/-- The loop offsets `-halfSize .. halfSize` with `halfSize = 5`
(`sampleSize = 10`), iterated by the v1 sampler: eleven values. -/
def offsets : List ℤ := (List.range 11).map (fun i : ℕ => (i : ℤ) - 5)

/-- Channel accumulation of the v1 `extractColorFromImage`: one 1×1
`getImageData` read per offset pair, the coordinates clamped into bounds. -/
def sampleChannel (img : Raster) (sx sy : ℕ) (ch : ℕ × ℕ × ℕ → ℕ) : ℕ :=
  (offsets.map (fun dy =>
    (offsets.map (fun dx =>
      ch (img.pixel (clampCoord ((sx : ℤ) + dx) img.width)
                    (clampCoord ((sy : ℤ) + dy) img.height)))).sum)).sum

/-- extractColorFromImage from the v1 utility module: average 121 point
samples (11×11 offsets, coordinates clamped into bounds) and round each
channel; the center defaults to the image center. -/
def extractColorFromImage (img : Raster) (x? y? : Option ℕ) : ℤ × ℤ × ℤ :=
  let sampleX := x?.getD (img.width / 2)
  let sampleY := y?.getD (img.height / 2)
  (round ((sampleChannel img sampleX sampleY (fun p => p.1) : ℚ) / (121 : ℚ)),
   round ((sampleChannel img sampleX sampleY (fun p => p.2.1) : ℚ) / (121 : ℚ)),
   round ((sampleChannel img sampleX sampleY (fun p => p.2.2) : ℚ) / (121 : ℚ)))

theorem clampCoord_lt (v : ℤ) (upper : ℕ) (h : 0 < upper) : clampCoord v upper < upper := by
  unfold clampCoord
  omega

theorem clampCoord_interior (c : ℕ) (i : ℕ) (upper : ℕ)
    (hc : 5 ≤ c) (hu : c + 5 < upper) (hi : i ≤ 10) :
    clampCoord ((c : ℤ) + ((i : ℤ) - 5)) upper = c - 5 + i := by
  unfold clampCoord
  omega

end V1

/-- Mean of one channel over the closed 11×11 square `[c-5, c+5]²`, the
window the v1 sampler actually averages at interior centers. -/
def closedWindowMeanChannel (img : Raster) (cx cy : ℕ) (ch : ℕ × ℕ × ℕ → ℕ) : ℤ :=
  let W := (Finset.Icc (cx - 5) (cx + 5)) ×ˢ (Finset.Icc (cy - 5) (cy + 5))
  round ((∑ p in W, (ch (img.pixel p.1 p.2) : ℚ)) / (W.card : ℚ))

/-- All three channel means over the closed 11×11 square. -/
def closedWindowMean (img : Raster) (cx cy : ℕ) : ℤ × ℤ × ℤ :=
  (closedWindowMeanChannel img cx cy (fun p => p.1),
   closedWindowMeanChannel img cx cy (fun p => p.2.1),
   closedWindowMeanChannel img cx cy (fun p => p.2.2))

namespace V1

theorem sampleChannel_interior (img : Raster) (cx cy : ℕ) (ch : ℕ × ℕ × ℕ → ℕ)
    (hx1 : 5 ≤ cx) (hx2 : cx + 5 < img.width)
    (hy1 : 5 ≤ cy) (hy2 : cy + 5 < img.height) :
    sampleChannel img cx cy ch
      = ∑ p in (Finset.Icc (cx - 5) (cx + 5)) ×ˢ (Finset.Icc (cy - 5) (cy + 5)),
          ch (img.pixel p.1 p.2) := by
  unfold sampleChannel offsets
  rw [Finset.sum_product]
  rw [List.map_map, sumRange_eq]
  have hIcc : ∀ (c : ℕ), 5 ≤ c →
      Finset.Icc (c - 5) (c + 5) = Finset.Ico (c - 5) (c - 5 + 11) := by
    intro c hc
    rw [← Nat.Ico_succ_right]
    congr 1
    omega
  rw [Finset.sum_comm]
  rw [hIcc cy hy1, Finset.sum_Ico_eq_sum_range]
  simp only [Nat.add_sub_cancel_left]
  refine Finset.sum_congr rfl fun j hj => ?_
  have hj10 : j ≤ 10 := by
    rw [Finset.mem_range] at hj
    omega
  simp only [Function.comp_apply]
  rw [List.map_map, sumRange_eq]
  rw [hIcc cx hx1, Finset.sum_Ico_eq_sum_range]
  simp only [Nat.add_sub_cancel_left]
  refine Finset.sum_congr rfl fun i hi => ?_
  have hi10 : i ≤ 10 := by
    rw [Finset.mem_range] at hi
    omega
  simp only [Function.comp_apply]
  rw [clampCoord_interior cx i img.width hx1 hx2 hi10,
      clampCoord_interior cy j img.height hy1 hy2 hj10]

theorem extractColorFromImage_interior (img : Raster) (cx cy : ℕ)
    (hx1 : 5 ≤ cx) (hx2 : cx + 5 < img.width)
    (hy1 : 5 ≤ cy) (hy2 : cy + 5 < img.height) :
    extractColorFromImage img (some cx) (some cy) = closedWindowMean img cx cy := by
  have hcard : ((Finset.Icc (cx - 5) (cx + 5)) ×ˢ (Finset.Icc (cy - 5) (cy + 5))).card
      = 121 := by
    rw [Finset.card_product, Nat.card_Icc, Nat.card_Icc]
    have h1 : cx + 5 + 1 - (cx - 5) = 11 := by omega
    have h2 : cy + 5 + 1 - (cy - 5) = 11 := by omega
    rw [h1, h2]
  unfold extractColorFromImage closedWindowMean closedWindowMeanChannel
  simp only [Option.getD_some]
  rw [sampleChannel_interior img cx cy _ hx1 hx2 hy1 hy2,
      sampleChannel_interior img cx cy _ hx1 hx2 hy1 hy2,
      sampleChannel_interior img cx cy _ hx1 hx2 hy1 hy2, hcard]
  norm_num [Nat.cast_sum]

theorem sampleChannel_congr (img img' : Raster) (sx sy : ℕ) (ch : ℕ × ℕ × ℕ → ℕ)
    (hw : img.width = img'.width) (hh : img.height = img'.height)
    (hw0 : 0 < img.width) (hh0 : 0 < img.height)
    (hpix : ∀ x y, x < img.width → y < img.height → img.pixel x y = img'.pixel x y) :
    sampleChannel img sx sy ch = sampleChannel img' sx sy ch := by
  unfold sampleChannel
  rw [← hw, ← hh]
  congr 1
  refine List.map_congr_left fun dy _ => ?_
  congr 1
  refine List.map_congr_left fun dx _ => ?_
  rw [hpix _ _ (clampCoord_lt _ _ hw0) (clampCoord_lt _ _ hh0)]

theorem extractColor_pixels_congr (img img' : Raster)
    (hw : img.width = img'.width) (hh : img.height = img'.height)
    (hw0 : 0 < img.width) (hh0 : 0 < img.height)
    (hpix : ∀ x y, x < img.width → y < img.height → img.pixel x y = img'.pixel x y)
    (x? y? : Option ℕ) :
    extractColorFromImage img x? y? = extractColorFromImage img' x? y? := by
  unfold extractColorFromImage
  dsimp only
  rw [← hw, ← hh]
  rw [sampleChannel_congr img img' _ _ _ hw hh hw0 hh0 hpix,
      sampleChannel_congr img img' _ _ _ hw hh hw0 hh0 hpix,
      sampleChannel_congr img img' _ _ _ hw hh hw0 hh0 hpix]

end V1

/-- A 20×20 raster whose red channel is 255 exactly on the column `x = 15`
and 0 elsewhere; green and blue are 0 everywhere. -/
def stripeRaster : Raster :=
  { width := 20, height := 20, pixel := fun x _ => (if x = 15 then 255 else 0, 0, 0) }

theorem stripe_v1_red : (V1.extractColorFromImage stripeRaster none none).1 = 23 := by
  have h1 : V1.sampleChannel stripeRaster 10 10 (fun p => p.1) = 2805 := by decide
  unfold V1.extractColorFromImage
  dsimp only
  have hx : (Option.none).getD (stripeRaster.width / 2) = 10 := by decide
  have hy : (Option.none).getD (stripeRaster.height / 2) = 10 := by decide
  rw [hx, hy, h1]
  rw [round_eq, Int.floor_eq_iff]
  norm_num

theorem stripe_spec_red : (specNeighborhoodMean stripeRaster 10 10).1 = 0 := by
  have h2 : (∑ p in (specWindow1D stripeRaster.width 10) ×ˢ (specWindow1D stripeRaster.height 10),
      (stripeRaster.pixel p.1 p.2).1) = 0 := by decide
  unfold specNeighborhoodMean specMeanChannel
  dsimp only
  rw [← Nat.cast_sum, h2]
  norm_num

theorem stripe_v2_red : (V2.extractColorFromImage stripeRaster none none 10).1 = 0 := by
  have hdef : V2.extractColorFromImage stripeRaster none none 10
      = V2.extractColorFromImage stripeRaster (some 10) (some 10) 10 := rfl
  rw [hdef, V2.extractColorFromImage_eq_spec stripeRaster 10 10 (by decide) (by decide)]
  exact stripe_spec_red

/-- Claim C6 counterexample: on a 20×20 raster with a red stripe at column
15 and the default (center) sample point, the v1 `extractColorFromImage`
(cited by the claim) returns red 23, while the claimed contract — the
rounded arithmetic mean over a clamped square neighborhood of side length
10 — yields red 0 (as the v2 version does): the v1 code averages 121
samples over a closed 11×11 window, not a 10-sided one. -/
theorem C6_sampler_counterexample :
    (V1.extractColorFromImage stripeRaster none none).1 = 23
  ∧ (specNeighborhoodMean stripeRaster 10 10).1 = 0
  ∧ (V2.extractColorFromImage stripeRaster none none 10).1 = 0
  ∧ (V1.extractColorFromImage stripeRaster none none).1
      ≠ (specNeighborhoodMean stripeRaster 10 10).1 := by
  refine ⟨stripe_v1_red, stripe_spec_red, stripe_v2_red, ?_⟩
  rw [stripe_v1_red, stripe_spec_red]
  decide

/-- Claim C6 as amended: the v2 `extractColorFromImage` returns, for each
channel, the rounded arithmetic mean over the half-open square
`[c-5, c+5) × [c-5, c+5)` clamped to the raster (with the sample center
defaulting to the image center), and reads no pixel outside the raster —
its result depends only on the in-bounds pixels; the v1 version instead
averages 121 clamped point samples over the closed square
`[c-5, c+5] × [c-5, c+5]` (border pixels sampled repeatedly), equal at
interior centers to the closed 11×11 window mean; it too reads only
in-bounds pixels of a non-empty raster, and both are deterministic. -/
theorem C6_sampler_behavior :
    (∀ (img : Raster) (cx cy : ℕ), cx < img.width → cy < img.height →
      V2.extractColorFromImage img (some cx) (some cy) 10 = specNeighborhoodMean img cx cy)
  ∧ (∀ img : Raster,
      V2.extractColorFromImage img none none 10
        = V2.extractColorFromImage img (some (img.width / 2)) (some (img.height / 2)) 10)
  ∧ (∀ (img img' : Raster), img.width = img'.width → img.height = img'.height →
      (∀ x y, x < img.width → y < img.height → img.pixel x y = img'.pixel x y) →
      ∀ (x? y? : Option ℕ) (s : ℕ),
      V2.extractColorFromImage img x? y? s = V2.extractColorFromImage img' x? y? s)
  ∧ (∀ (img : Raster) (cx cy : ℕ),
      5 ≤ cx → cx + 5 < img.width → 5 ≤ cy → cy + 5 < img.height →
      V1.extractColorFromImage img (some cx) (some cy) = closedWindowMean img cx cy)
  ∧ (∀ img : Raster,
      V1.extractColorFromImage img none none
        = V1.extractColorFromImage img (some (img.width / 2)) (some (img.height / 2)))
  ∧ (∀ (img img' : Raster), img.width = img'.width → img.height = img'.height →
      0 < img.width → 0 < img.height →
      (∀ x y, x < img.width → y < img.height → img.pixel x y = img'.pixel x y) →
      ∀ (x? y? : Option ℕ),
      V1.extractColorFromImage img x? y? = V1.extractColorFromImage img' x? y?) :=
  ⟨fun img cx cy hx hy => V2.extractColorFromImage_eq_spec img cx cy hx hy,
   fun _ => rfl,
   fun img img' hw hh hpix x? y? s => V2.extractColorFromImage_congr img img' hw hh hpix x? y? s,
   fun img cx cy hx1 hx2 hy1 hy2 =>
     V1.extractColorFromImage_interior img cx cy hx1 hx2 hy1 hy2,
   fun _ => rfl,
   fun img img' hw hh hw0 hh0 hpix x? y? =>
     V1.extractColor_pixels_congr img img' hw hh hw0 hh0 hpix x? y?⟩

/-- Witness for C6: at the stripe raster and the in-bounds center (10, 10),
the v2 sampler equals the claimed clamped-window mean. -/
theorem C6_sampler_behavior_witness :
    V2.extractColorFromImage stripeRaster (some 10) (some 10) 10
      = specNeighborhoodMean stripeRaster 10 10 :=
  C6_sampler_behavior.1 stripeRaster 10 10 (by decide) (by decide)

namespace V2

/-- JS `c.toString(16)` for a nonnegative integer: lowercase hex digits,
no leading zeros. -/
def toHex (c : ℕ) : List Char := Nat.toDigits 16 c

/-- JS `.padStart(2, '0')`. -/
def padStart2 (s : List Char) : List Char :=
  if s.length < 2 then List.replicate (2 - s.length) '0' ++ s else s

/-- rgbToHex from `utils.ts`:
`'#' + rgb.map(c => c.toString(16).padStart(2, '0')).join('')`. -/
def rgbToHex (rgb : ℕ × ℕ × ℕ) : String :=
  String.mk ('#' :: (padStart2 (toHex rgb.1) ++ padStart2 (toHex rgb.2.1)
    ++ padStart2 (toHex rgb.2.2)))

/-- Character class `[a-f\d]` with the regex `i` flag. -/
def isHexDigitCI (c : Char) : Bool :=
  ('0' ≤ c && c ≤ '9') || ('a' ≤ c && c ≤ 'f') || ('A' ≤ c && c ≤ 'F')

/-- Value of one hex digit as `parseInt` reads it (case insensitive). -/
def hexVal (c : Char) : ℕ :=
  if '0' ≤ c && c ≤ '9' then c.toNat - '0'.toNat
  else if 'a' ≤ c && c ≤ 'f' then c.toNat - 'a'.toNat + 10
  else if 'A' ≤ c && c ≤ 'F' then c.toNat - 'A'.toNat + 10
  else 0

/-- The `#?` regex prefix: drop one leading `'#'` when present. -/
def stripHash : List Char → List Char
  | c :: rest => if c = '#' then rest else c :: rest
  | [] => []

/-- `parseInt` of one two-hex-digit capture group. -/
def pairParse : List Char → Option ℕ
  | [a, b] => if isHexDigitCI a && isHexDigitCI b then some (16 * hexVal a + hexVal b) else none
  | _ => none

/-- The regex body `([a-f\d]{2})([a-f\d]{2})([a-f\d]{2})$` applied after the
optional hash: exactly six hex digits parsed in pairs. -/
def hexToRgbAux : List Char → Option (ℕ × ℕ × ℕ)
  | [a, b, c, d, e, f] =>
    if isHexDigitCI a && isHexDigitCI b && isHexDigitCI c && isHexDigitCI d
        && isHexDigitCI e && isHexDigitCI f then
      some (16 * hexVal a + hexVal b, 16 * hexVal c + hexVal d, 16 * hexVal e + hexVal f)
    else none
  | _ => none

/-- hexToRgb from `utils.ts`: match `^#?([a-f\d]{2}){3}$` case-insensitively
and parse each pair in base 16; `none` models the thrown invalid-hex
error. -/
def hexToRgb (s : String) : Option (ℕ × ℕ × ℕ) :=
  hexToRgbAux (stripHash s.data)

set_option maxRecDepth 4096 in
theorem pair_roundtrip : ∀ c < 256, pairParse (padStart2 (toHex c)) = some c := by decide

theorem pairParse_shape (l : List Char) (v : ℕ) (h : pairParse l = some v) :
    ∃ a b, l = [a, b] ∧ isHexDigitCI a ∧ isHexDigitCI b ∧ 16 * hexVal a + hexVal b = v := by
  match l with
  | [] => simp [pairParse] at h
  | [a] => simp [pairParse] at h
  | [a, b] =>
    refine ⟨a, b, rfl, ?_⟩
    simp only [pairParse] at h
    by_cases hc : isHexDigitCI a && isHexDigitCI b
    · rw [if_pos hc] at h
      have hab := Bool.and_eq_true_iff.mp hc
      exact ⟨hab.1, hab.2, Option.some.inj h⟩
    · rw [if_neg hc] at h
      cases h
  | a :: b :: c :: rest => simp [pairParse] at h

theorem hexToRgbAux_some (l : List Char) (v : ℕ × ℕ × ℕ) (h : hexToRgbAux l = some v) :
    l.length = 6 ∧ ∀ c ∈ l, isHexDigitCI c := by
  match l with
  | [] => simp [hexToRgbAux] at h
  | [a] => simp [hexToRgbAux] at h
  | [a, b] => simp [hexToRgbAux] at h
  | [a, b, c] => simp [hexToRgbAux] at h
  | [a, b, c, d] => simp [hexToRgbAux] at h
  | [a, b, c, d, e] => simp [hexToRgbAux] at h
  | [a, b, c, d, e, f] =>
    simp only [hexToRgbAux] at h
    by_cases hc : (isHexDigitCI a && isHexDigitCI b && isHexDigitCI c && isHexDigitCI d
        && isHexDigitCI e && isHexDigitCI f) = true
    · have hall := hc
      simp only [Bool.and_eq_true] at hall
      refine ⟨rfl, ?_⟩
      intro x hx
      simp only [List.mem_cons, List.not_mem_nil, or_false] at hx
      rcases hx with rfl | rfl | rfl | rfl | rfl | rfl
      · exact hall.1.1.1.1.1
      · exact hall.1.1.1.1.2
      · exact hall.1.1.1.2
      · exact hall.1.1.2
      · exact hall.1.2
      · exact hall.2
    · rw [if_neg hc] at h
      cases h
  | a :: b :: c :: d :: e :: f :: g :: rest => simp [hexToRgbAux] at h

theorem stripHash_of_ne (a : Char) (rest : List Char) (h : ¬ a = '#') :
    stripHash (a :: rest) = a :: rest := by
  simp [stripHash, h]

theorem stripHash_cases (l : List Char) : l = stripHash l ∨ l = '#' :: stripHash l := by
  match l with
  | [] => left; rfl
  | a :: rest =>
    by_cases ha : a = '#'
    · right
      subst ha
      simp [stripHash]
    · left
      rw [stripHash_of_ne a rest ha]

end V2

/-- Claim-side predicate for the invalid-hex contract: an optional `'#'`
followed by exactly six (case-insensitive) hexadecimal digits. -/
def ValidHexString (s : String) : Prop :=
  ∃ core : List Char, (s.data = core ∨ s.data = '#' :: core)
    ∧ core.length = 6 ∧ ∀ c ∈ core, V2.isHexDigitCI c

namespace V2

theorem hexToRgb_roundtrip (r g b : ℕ) (hr : r ≤ 255) (hg : g ≤ 255) (hb : b ≤ 255) :
    hexToRgb (rgbToHex (r, g, b)) = some (r, g, b) := by
  obtain ⟨a1, b1, hsh1, hhex1a, hhex1b, hval1⟩ :=
    pairParse_shape _ _ (pair_roundtrip r (by omega))
  obtain ⟨a2, b2, hsh2, hhex2a, hhex2b, hval2⟩ :=
    pairParse_shape _ _ (pair_roundtrip g (by omega))
  obtain ⟨a3, b3, hsh3, hhex3a, hhex3b, hval3⟩ :=
    pairParse_shape _ _ (pair_roundtrip b (by omega))
  unfold hexToRgb rgbToHex
  simp only [String.data]
  rw [hsh1, hsh2, hsh3]
  show hexToRgbAux (stripHash ('#' :: ([a1, b1] ++ [a2, b2] ++ [a3, b3]))) = some (r, g, b)
  have hstrip : stripHash ('#' :: ([a1, b1] ++ [a2, b2] ++ [a3, b3]))
      = [a1, b1, a2, b2, a3, b3] := rfl
  rw [hstrip]
  simp only [hexToRgbAux]
  rw [if_pos (by simp [hhex1a, hhex1b, hhex2a, hhex2b, hhex3a, hhex3b])]
  rw [hval1, hval2, hval3]

theorem hexToRgb_none_iff (s : String) : hexToRgb s = none ↔ ¬ ValidHexString s := by
  constructor
  · intro h hval
    obtain ⟨core, hcase, hlen, hhex⟩ := hval
    have hstrip : stripHash s.data = core := by
      rcases hcase with hc | hc
      · rw [hc]
        match core, hhex with
        | [], _ => simp [stripHash]
        | a :: rest, hhex =>
          have ha : ¬ a = '#' := by
            intro hEq
            have hmem := hhex a (by simp)
            rw [hEq] at hmem
            simp [isHexDigitCI] at hmem
          exact stripHash_of_ne a rest ha
      · rw [hc]
        simp [stripHash]
    rcases core with _ | ⟨a, _ | ⟨b, _ | ⟨c, _ | ⟨d, _ | ⟨e, _ | ⟨f, rest⟩⟩⟩⟩⟩⟩ <;>
      simp only [List.length_cons, List.length_nil] at hlen
    · omega
    · omega
    · omega
    · omega
    · omega
    · omega
    · have hrest : rest = [] := List.length_eq_zero.mp (by omega)
      subst hrest
      unfold hexToRgb at h
      rw [hstrip] at h
      simp only [hexToRgbAux] at h
      rw [if_pos] at h
      · cases h
      · simp only [Bool.and_eq_true]
        refine ⟨⟨⟨⟨⟨?_, ?_⟩, ?_⟩, ?_⟩, ?_⟩, ?_⟩ <;>
          · apply hhex
            simp
  · intro hnval
    cases hopt : hexToRgb s with
    | none => rfl
    | some v =>
      exfalso
      apply hnval
      unfold hexToRgb at hopt
      obtain ⟨hlen6, hallhex⟩ := hexToRgbAux_some _ _ hopt
      refine ⟨stripHash s.data, ?_, hlen6, hallhex⟩
      exact stripHash_cases s.data

end V2

/-- Claim C10: `hexToRgb` inverts `rgbToHex` on every byte triple, and
`hexToRgb` rejects (throws, modelled as `none`) exactly the strings that
are not an optional `'#'` followed by six hexadecimal digits. -/
theorem C10_hex_color_roundtrip :
    (∀ r g b : ℕ, r ≤ 255 → g ≤ 255 → b ≤ 255 →
      V2.hexToRgb (V2.rgbToHex (r, g, b)) = some (r, g, b))
  ∧ (∀ s : String, V2.hexToRgb s = none ↔ ¬ ValidHexString s) :=
  ⟨fun r g b hr hg hb => V2.hexToRgb_roundtrip r g b hr hg hb,
   fun s => V2.hexToRgb_none_iff s⟩

/-- Witness for C10: the triple (255, 10, 0) round-trips through
`rgbToHex`/`hexToRgb`. -/
theorem C10_hex_color_roundtrip_witness :
    V2.hexToRgb (V2.rgbToHex (255, 10, 0)) = some (255, 10, 0) :=
  C10_hex_color_roundtrip.1 255 10 0 (by decide) (by decide) (by decide)
